import Mathlib

/-!
Shallow embedding of the ECS component store in src/main.cpp.

Each C++ component type owns one static `std::vector<std::pair<Entity::IDType,
Component>>`; here a collection is a `List (EntityID × Component)` and every
store operation is a pure function from collection to collection.  Entity
identifiers (uint32, used only for equality tests, never for arithmetic) are
modelled as natural numbers.  The `float` fields of the demo `Position`
component are modelled as exact rationals.
-/

namespace ECS

/-- Entity identifier (Entity::IDType in the source, an unsigned 32-bit
integer the store only ever compares for equality). -/
abbrev EntityID : Type := Nat

/-- A record pairing an entity identifier with a component value
(ECS::EntityComponentPair in the source). -/
abbrev EntityComponentPair (Component : Type) : Type := EntityID × Component

/-- The collection of records for one component type
(ECS::EntityComponentList, a std::vector kept in insertion order). -/
abbrev EntityComponentList (Component : Type) : Type :=
  List (EntityComponentPair Component)

/-- The predicate ECS::matchEntity: does the record carry the given entity
identifier? -/
def matchEntity {Component : Type} (entityID : EntityID)
    (pair : EntityComponentPair Component) : Bool :=
  pair.1 == entityID

/-- ECS::addComponentToEntity: if the scan (std::ranges::find_if) finds no
record for entityID, append (entityID, component) at the end
(emplace_back); otherwise leave the collection unchanged. -/
def addComponentToEntity {Component : Type} (entityID : EntityID)
    (component : Component) (components : EntityComponentList Component) :
    EntityComponentList Component :=
  if components.any (matchEntity entityID) then components
  else components ++ [(entityID, component)]

/-- ECS::removeComponentFromEntity: std::erase_if, a stable deletion of
every record matching entityID. -/
def removeComponentFromEntity {Component : Type} (entityID : EntityID)
    (components : EntityComponentList Component) :
    EntityComponentList Component :=
  components.filter (fun pair => !(matchEntity entityID pair))

/-- ECS::entityHasComponent: linear scan deciding whether a record for
entityID is present. -/
def entityHasComponent {Component : Type} (entityID : EntityID)
    (components : EntityComponentList Component) : Bool :=
  components.any (matchEntity entityID)

/-- ECS::getComponentOfEntity: the component value of the first record
matching entityID, if any (the source returns an optional pointer to that
value; we model the value observed through the pointer). -/
def getComponentOfEntity {Component : Type} (entityID : EntityID)
    (components : EntityComponentList Component) : Option Component :=
  (components.find? (matchEntity entityID)).map Prod.snd

/-- ECS::getComponentsView: every component value in current storage
order. -/
def getComponentsView {Component : Type}
    (components : EntityComponentList Component) : List Component :=
  components.map Prod.snd

/-- ECS::getEntityIDsWithComponentView: every entity identifier in current
storage order. -/
def getEntityIDsWithComponentView {Component : Type}
    (components : EntityComponentList Component) : List EntityID :=
  components.map Prod.fst

/-- ECS::applySystem: find the first record for entityID and, when present,
transform its component value in place.  The freshly constructed system
instance applied to the extra arguments is modelled as the function
transform. -/
def applySystem {Component : Type} (transform : Component → Component)
    (entityID : EntityID) :
    EntityComponentList Component → EntityComponentList Component
  | [] => []
  | pair :: rest =>
      if matchEntity entityID pair then (pair.1, transform pair.2) :: rest
      else pair :: applySystem transform entityID rest

/-- One mutating store operation on a single component type: insert, remove,
or a system application (the three mutators the ECS class exposes). -/
inductive Op (Component : Type) where
  | insert (entityID : EntityID) (component : Component)
  | remove (entityID : EntityID)
  | system (transform : Component → Component) (entityID : EntityID)

/-- Run one operation on a collection. -/
def runOp {Component : Type} (components : EntityComponentList Component) :
    Op Component → EntityComponentList Component
  | Op.insert entityID component => addComponentToEntity entityID component components
  | Op.remove entityID => removeComponentFromEntity entityID components
  | Op.system transform entityID => applySystem transform entityID components

/-- Run a sequence of operations starting from the empty collection a
component type gets on first access (the static vector is value
initialised). -/
def runOps {Component : Type} (ops : List (Op Component)) :
    EntityComponentList Component :=
  ops.foldl runOp []

/-- A store restricted to two distinct component types A and B.  In the
source each template instantiation of ECS::get owns its own static vector;
the pair makes that per-type separation explicit. -/
structure Store2 (A B : Type) where
  listA : EntityComponentList A
  listB : EntityComponentList B

/-- ECS::addComponentToEntity instantiated at component type A of a
two-type store: only the static vector of A is touched. -/
def addComponentFst {A B : Type} (entityID : EntityID) (component : A)
    (store : Store2 A B) : Store2 A B :=
  { store with listA := addComponentToEntity entityID component store.listA }

/-- ECS::applySystem for a system whose ComponentType is A, on a two-type
store: only the static vector of A is touched. -/
def applySystemFst {A B : Type} (transform : A → A) (entityID : EntityID)
    (store : Store2 A B) : Store2 A B :=
  { store with listA := applySystem transform entityID store.listA }

/-- ECS::entityHasComponent instantiated at component type B of a two-type
store. -/
def entityHasComponentSnd {A B : Type} (entityID : EntityID)
    (store : Store2 A B) : Bool :=
  entityHasComponent entityID store.listB

/-- The demo Position component; its two float fields are modelled as exact
rationals. -/
structure Position where
  x : ℚ
  y : ℚ
deriving DecidableEq

/-- The demo MoveSystem: adds rate times dt, with rate one, to each axis of
a Position, in place. -/
def MoveSystem (dt : ℚ) (position : Position) : Position :=
  { x := position.x + 1 * dt, y := position.y + 1 * dt }

/-- The demo GravitySystem: subtracts 9.81 times dt from the y axis of a
Position, in place. -/
def GravitySystem (dt : ℚ) (position : Position) : Position :=
  { position with y := position.y - (981 / 100) * dt }

/-! Helper lemmas shared by several claims. -/

theorem matchEntity_self {C : Type} (e : EntityID) (c : C) :
    matchEntity e (e, c) = true := by
  simp [matchEntity]

theorem not_has_forall {C : Type} {e : EntityID} {l : EntityComponentList C}
    (h : entityHasComponent e l = false) : ∀ p ∈ l, ¬ matchEntity e p = true := by
  unfold entityHasComponent at h
  exact fun p hp => (List.any_eq_false.mp h) p hp

theorem addComponent_of_not_found {C : Type} {e : EntityID} {c : C}
    {l : EntityComponentList C} (h : entityHasComponent e l = false) :
    addComponentToEntity e c l = l ++ [(e, c)] := by
  unfold entityHasComponent at h
  simp [addComponentToEntity, h]

theorem addComponent_of_found {C : Type} {e : EntityID} {c : C}
    {l : EntityComponentList C} (h : entityHasComponent e l = true) :
    addComponentToEntity e c l = l := by
  unfold entityHasComponent at h
  simp [addComponentToEntity, h]

theorem has_append_singleton {C : Type} (e : EntityID) (c : C)
    (l : EntityComponentList C) :
    entityHasComponent e (l ++ [(e, c)]) = true := by
  unfold entityHasComponent
  simp [matchEntity]

theorem not_has_countP {C : Type} {e : EntityID} {l : EntityComponentList C}
    (h : entityHasComponent e l = false) : l.countP (matchEntity e) = 0 :=
  List.countP_eq_zero.mpr (not_has_forall h)

theorem not_has_find? {C : Type} {e : EntityID} {l : EntityComponentList C}
    (h : entityHasComponent e l = false) : l.find? (matchEntity e) = none :=
  List.find?_eq_none.mpr (not_has_forall h)

theorem applySystem_of_not_has {C : Type} (f : C → C) {e : EntityID}
    {l : EntityComponentList C} (h : entityHasComponent e l = false) :
    applySystem f e l = l := by
  induction l with
  | nil => rfl
  | cons p t ih =>
      unfold entityHasComponent at h
      simp only [List.any_cons, Bool.or_eq_false_iff] at h
      simp only [applySystem, h.1, if_neg]
      rw [ih]
      · simp [h.1]
      · exact h.2

theorem map_fst_applySystem {C : Type} (f : C → C) (e : EntityID)
    (l : EntityComponentList C) :
    (applySystem f e l).map Prod.fst = l.map Prod.fst := by
  induction l with
  | nil => rfl
  | cons p t ih =>
      cases h : matchEntity e p with
      | true => simp [applySystem, h]
      | false => simp [applySystem, h, ih]

theorem nodup_runOp {C : Type} (op : Op C) (l : EntityComponentList C)
    (h : (l.map Prod.fst).Nodup) : ((runOp l op).map Prod.fst).Nodup := by
  cases op with
  | insert e c =>
      cases hfound : entityHasComponent e l with
      | true =>
          rw [show runOp l (Op.insert e c) = addComponentToEntity e c l from rfl,
            addComponent_of_found hfound]
          exact h
      | false =>
          rw [show runOp l (Op.insert e c) = addComponentToEntity e c l from rfl,
            addComponent_of_not_found hfound, List.map_append, List.map_cons, List.map_nil,
            ← List.concat_eq_append]
          refine List.Nodup.concat ?_ h
          intro hmem
          rcases List.mem_map.mp hmem with ⟨p, hp, hpe⟩
          exact not_has_forall hfound p hp (by simp [matchEntity, hpe])
  | remove e =>
      exact List.Nodup.sublist ((List.filter_sublist l).map Prod.fst) h
  | system f e =>
      rw [show runOp l (Op.system f e) = applySystem f e l from rfl,
        map_fst_applySystem]
      exact h

theorem nodup_runOps {C : Type} (ops : List (Op C)) :
    ((runOps ops).map Prod.fst).Nodup := by
  unfold runOps
  have hgen : ∀ l : EntityComponentList C, (l.map Prod.fst).Nodup →
      ((ops.foldl runOp l).map Prod.fst).Nodup := by
    induction ops with
    | nil => exact fun l h => h
    | cons op rest ih =>
        intro l h
        exact ih (runOp l op) (nodup_runOp op l h)
  exact hgen [] (List.nodup_nil)

/-! The claims. -/

/-- C1: inserting for an entity not yet present and then inserting again for
the same entity leaves exactly one record for it, holding the first value;
the second insert is discarded without any error being signalled. -/
theorem insert_first_write_wins {C : Type} (e : EntityID) (c1 c2 : C)
    (l : EntityComponentList C) (h : entityHasComponent e l = false) :
    (addComponentToEntity e c2 (addComponentToEntity e c1 l)).countP (matchEntity e) = 1 ∧
    getComponentOfEntity e (addComponentToEntity e c2 (addComponentToEntity e c1 l)) = some c1 := by
  rw [addComponent_of_not_found h, addComponent_of_found (has_append_singleton e c1 l)]
  constructor
  · rw [List.countP_append, not_has_countP h]
    simp [matchEntity]
  · unfold getComponentOfEntity
    rw [List.find?_append, not_has_find? h]
    simp [matchEntity]

/-- C1 witness: concrete run with entity 1, first value 10, second value 20,
starting from the empty collection. -/
theorem insert_first_write_wins_witness :
    entityHasComponent 1 ([] : EntityComponentList Nat) = false ∧
    ((addComponentToEntity 1 20 (addComponentToEntity 1 10 ([] : EntityComponentList Nat))).countP
        (matchEntity 1) = 1 ∧
      getComponentOfEntity 1
        (addComponentToEntity 1 20 (addComponentToEntity 1 10 ([] : EntityComponentList Nat))) =
        some 10) :=
  ⟨by decide, insert_first_write_wins 1 10 20 [] (by decide)⟩

/-- C3: existence reflects presence: for every entity identifier and
collection state, entityHasComponent is true exactly when
getComponentOfEntity returns a non-empty optional. -/
theorem has_iff_get_isSome {C : Type} (e : EntityID) (l : EntityComponentList C) :
    entityHasComponent e l = true ↔ (getComponentOfEntity e l).isSome = true := by
  unfold entityHasComponent getComponentOfEntity
  rw [Option.isSome_map', List.find?_isSome, List.any_eq_true]

/-- C4: insert, then remove, then insert a new value for the same entity:
the collection ends with exactly one record for that entity and lookup
returns the second value — removal followed by re-insertion replaces. -/
theorem remove_then_insert_replaces {C : Type} (e : EntityID) (c1 c2 : C)
    (l : EntityComponentList C) :
    (addComponentToEntity e c2 (removeComponentFromEntity e
        (addComponentToEntity e c1 l))).countP (matchEntity e) = 1 ∧
    getComponentOfEntity e (addComponentToEntity e c2 (removeComponentFromEntity e
        (addComponentToEntity e c1 l))) = some c2 := by
  have hgone : entityHasComponent e
      (removeComponentFromEntity e (addComponentToEntity e c1 l)) = false := by
    unfold entityHasComponent removeComponentFromEntity
    rw [List.any_eq_false]
    intro p hp
    rcases List.mem_filter.mp hp with ⟨-, hkeep⟩
    simp only [Bool.not_eq_eq_eq_not, Bool.not_true] at hkeep
    simp [hkeep]
  rw [addComponent_of_not_found hgone]
  constructor
  · rw [List.countP_append, not_has_countP hgone]
    simp [matchEntity]
  · unfold getComponentOfEntity
    rw [List.find?_append, not_has_find? hgone]
    simp [matchEntity]

/-- C5: absence is never a failure: when the entity has no record, removal
and system application leave the collection exactly unchanged and lookup
returns the empty optional; none of them signals an error. -/
theorem absence_is_noop {C : Type} (f : C → C) (e : EntityID)
    (l : EntityComponentList C) (h : entityHasComponent e l = false) :
    removeComponentFromEntity e l = l ∧ applySystem f e l = l ∧
    getComponentOfEntity e l = none := by
  refine ⟨?_, applySystem_of_not_has f h, ?_⟩
  · unfold removeComponentFromEntity
    rw [List.filter_eq_self]
    intro p hp
    simp only [Bool.not_eq_eq_eq_not, Bool.not_true]
    exact Bool.eq_false_iff.mpr (not_has_forall h p hp)
  · unfold getComponentOfEntity
    rw [not_has_find? h]
    rfl

/-- C5 witness: concrete run with entity 7 absent from a one-record
collection for entity 1. -/
theorem absence_is_noop_witness :
    entityHasComponent 7 ([(1, 10)] : EntityComponentList Nat) = false ∧
    (removeComponentFromEntity 7 ([(1, 10)] : EntityComponentList Nat) = [(1, 10)] ∧
      applySystem Nat.succ 7 ([(1, 10)] : EntityComponentList Nat) = [(1, 10)] ∧
      getComponentOfEntity 7 ([(1, 10)] : EntityComponentList Nat) = none) :=
  ⟨by decide, absence_is_noop Nat.succ 7 [(1, 10)] (by decide)⟩

theorem applySystem_getElem?_of_ne {C : Type} (f : C → C) (e : EntityID)
    (l : EntityComponentList C) :
    ∀ (j : Nat) (p : EntityComponentPair C), l[j]? = some p →
      ¬ matchEntity e p = true → (applySystem f e l)[j]? = some p := by
  induction l with
  | nil =>
      intro j p hj _
      simp at hj
  | cons q t ih =>
      intro j p hj hne
      cases hq : matchEntity e q with
      | true =>
          cases j with
          | zero =>
              rw [List.getElem?_cons_zero] at hj
              cases hj
              exact absurd hq hne
          | succ n =>
              rw [List.getElem?_cons_succ] at hj
              simp only [applySystem, hq, if_pos, List.getElem?_cons_succ]
              exact hj
      | false =>
          cases j with
          | zero =>
              rw [List.getElem?_cons_zero] at hj
              simp only [applySystem, hq, Bool.false_eq_true, if_neg, not_false_iff,
                List.getElem?_cons_zero]
              exact hj
          | succ n =>
              rw [List.getElem?_cons_succ] at hj
              simp only [applySystem, hq, Bool.false_eq_true, if_neg, not_false_iff,
                List.getElem?_cons_succ]
              exact ih n p hj hne

/-- C2: starting from the empty collection a component type gets on first
access, every sequence of insert, remove and system operations leaves at
most one record per entity identifier — no reachable state holds two
records with the same identifier. -/
theorem at_most_one_record_per_entity {C : Type} (ops : List (Op C)) (e : EntityID) :
    (runOps ops).countP (matchEntity e) ≤ 1 := by
  have hnd : ((runOps ops).map Prod.fst).Nodup := nodup_runOps ops
  have hco : (runOps ops).countP (matchEntity e) =
      ((runOps ops).map Prod.fst).count e := by
    rw [List.count_eq_countP, List.countP_map]
    rfl
  rw [hco]
  exact List.nodup_iff_count_le_one.mp hnd e

/-- C6: with Position two three stored for entity one, applying MoveSystem
with dt 0.016 (rate one per axis) updates the stored component in place, and
lookup afterwards returns a Position within one millionth of 2.016 and 3.016
on the two axes (float arithmetic modelled by exact rationals; the stated
tolerance absorbs rounding). -/
theorem moveSystem_updates_position :
    ∃ p : Position,
      getComponentOfEntity 1 (applySystem (MoveSystem (16 / 1000)) 1
        (addComponentToEntity 1 (Position.mk 2 3) [])) = some p ∧
      |p.x - 2016 / 1000| ≤ 1 / 1000000 ∧ |p.y - 3016 / 1000| ≤ 1 / 1000000 := by
  refine ⟨Position.mk (2 + 1 * (16 / 1000)) (3 + 1 * (16 / 1000)), rfl, ?_, ?_⟩
  · have hx : (2 : ℚ) + 1 * (16 / 1000) - 2016 / 1000 = 0 := by norm_num
    rw [hx, abs_zero]
    norm_num
  · have hy : (3 : ℚ) + 1 * (16 / 1000) - 3016 / 1000 = 0 := by norm_num
    rw [hy, abs_zero]
    norm_num

/-- C7: type isolation: inserting a component of type A for any entity never
changes the result of the existence check on the distinct component type B,
because each template instantiation owns its own static collection. -/
theorem type_isolation {A B : Type} (e e2 : EntityID) (c : A) (s : Store2 A B) :
    entityHasComponentSnd e2 (addComponentFst e c s) = entityHasComponentSnd e2 s := rfl

/-- C8: after inserting components for the four distinct entities 2, 3, 4
and 5 into the empty collection, getEntityIDsWithComponentView yields
exactly four identifiers, each of 2, 3, 4, 5 exactly once. -/
theorem iteration_complete {C : Type} (c2 c3 c4 c5 : C) :
    (getEntityIDsWithComponentView (addComponentToEntity 5 c5 (addComponentToEntity 4 c4
      (addComponentToEntity 3 c3 (addComponentToEntity 2 c2 []))))).length = 4 ∧
    (getEntityIDsWithComponentView (addComponentToEntity 5 c5 (addComponentToEntity 4 c4
      (addComponentToEntity 3 c3 (addComponentToEntity 2 c2 []))))).Nodup ∧
    ∀ e : EntityID, (e ∈ getEntityIDsWithComponentView (addComponentToEntity 5 c5
      (addComponentToEntity 4 c4 (addComponentToEntity 3 c3 (addComponentToEntity 2 c2 [])))) ↔
      e ∈ [2, 3, 4, 5]) := by
  have hids : getEntityIDsWithComponentView (addComponentToEntity 5 c5 (addComponentToEntity 4 c4
      (addComponentToEntity 3 c3 (addComponentToEntity 2 c2 ([] : EntityComponentList C))))) =
      [2, 3, 4, 5] := rfl
  rw [hids]
  exact ⟨rfl, by decide, fun e => Iff.rfl⟩

/-- C9: removal is stable: the collection after removeComponentFromEntity is
a sublist of the one before (no surviving record moves relative to another),
holds no record for the removed entity, and is shorter exactly by the number
of records that entity had — nothing else is deleted. -/
theorem remove_preserves_survivor_order {C : Type} (e : EntityID)
    (l : EntityComponentList C) :
    (removeComponentFromEntity e l).Sublist l ∧
    (∀ p ∈ removeComponentFromEntity e l, ¬ matchEntity e p = true) ∧
    (removeComponentFromEntity e l).length = l.length - l.countP (matchEntity e) := by
  refine ⟨List.filter_sublist l, ?_, ?_⟩
  · intro p hp
    rcases List.mem_filter.mp hp with ⟨-, hq⟩
    simpa using hq
  · have hlen : (removeComponentFromEntity e l).length + l.countP (matchEntity e) =
        l.length := by
      induction l with
      | nil => rfl
      | cons p rest ih =>
          cases h : matchEntity e p with
          | true =>
              simp [removeComponentFromEntity, List.filter_cons, h, List.countP_cons] at *
              omega
          | false =>
              simp [removeComponentFromEntity, List.filter_cons, h, List.countP_cons] at *
              omega
    omega

/-- C10: applying a system to an entity present in its declared component
type collection changes at most that entity's component value: the length,
the identifier sequence in order, every record for a different entity (at
its position), and the collection of the other component type are exactly
unchanged. -/
theorem applySystem_frame {A B : Type} (f : A → A) (e : EntityID) (s : Store2 A B)
    (_h : entityHasComponent e s.listA = true) :
    (applySystemFst f e s).listA.length = s.listA.length ∧
    getEntityIDsWithComponentView (applySystemFst f e s).listA =
      getEntityIDsWithComponentView s.listA ∧
    (∀ (j : Nat) (p : EntityComponentPair A), s.listA[j]? = some p →
      ¬ matchEntity e p = true → (applySystemFst f e s).listA[j]? = some p) ∧
    (applySystemFst f e s).listB = s.listB := by
  refine ⟨?_, map_fst_applySystem f e s.listA, applySystem_getElem?_of_ne f e s.listA, rfl⟩
  have hmap := congrArg List.length (map_fst_applySystem f e s.listA)
  simpa using hmap

/-- C10 witness: concrete two-type store holding records for entities 1 and
2 in the first collection and entity 3 in the second; the system is applied
to entity 1. -/
theorem applySystem_frame_witness :
    entityHasComponent 1 (Store2.mk [(1, 0), (2, 5)] [(3, 7)] : Store2 Nat Nat).listA = true ∧
    ((applySystemFst Nat.succ 1 (Store2.mk [(1, 0), (2, 5)] [(3, 7)] : Store2 Nat Nat)).listA.length =
        (Store2.mk [(1, 0), (2, 5)] [(3, 7)] : Store2 Nat Nat).listA.length ∧
      getEntityIDsWithComponentView
          (applySystemFst Nat.succ 1 (Store2.mk [(1, 0), (2, 5)] [(3, 7)] : Store2 Nat Nat)).listA =
        getEntityIDsWithComponentView (Store2.mk [(1, 0), (2, 5)] [(3, 7)] : Store2 Nat Nat).listA ∧
      (∀ (j : Nat) (p : EntityComponentPair Nat),
        (Store2.mk [(1, 0), (2, 5)] [(3, 7)] : Store2 Nat Nat).listA[j]? = some p →
        ¬ matchEntity 1 p = true →
        (applySystemFst Nat.succ 1 (Store2.mk [(1, 0), (2, 5)] [(3, 7)] : Store2 Nat Nat)).listA[j]? =
          some p) ∧
      (applySystemFst Nat.succ 1 (Store2.mk [(1, 0), (2, 5)] [(3, 7)] : Store2 Nat Nat)).listB =
        (Store2.mk [(1, 0), (2, 5)] [(3, 7)] : Store2 Nat Nat).listB) :=
  ⟨by decide, applySystem_frame Nat.succ 1 (Store2.mk [(1, 0), (2, 5)] [(3, 7)]) (by decide)⟩

end ECS
